import Mathlib

/-!
Verification of the action-queue push module
(`src/controllers/action-queue/push.js`): effect-to-trigger conversion,
call-stack identifier building, push-event assembly, and the push-server
client. The JavaScript is embedded shallowly: asynchronous functions that
always resolve become pure functions, thrown exceptions become
`Except String`, and `undefined` results become `Option`.
-/

namespace ActionQueuePush

/-- JavaScript numbers that this module only passes through unchanged
(rates, confirmation counts); no arithmetic is performed on them, so they
are modelled as integers. -/
abbrev JsNumber := Int

/-- The `ActionEffect` tagged union (discriminated by its `type` field) that
the push module consumes, with exactly the fields `push.js` reads. -/
inductive ActionEffect : Type where
  | seq (opIndex : Nat) (childEffect : Option ActionEffect)
  | par (childEffects : List (Option ActionEffect))
  | addressBalance (address : String) (walletId : String) (tokenId : Option String)
      (aboveAmount : Option String) (belowAmount : Option String)
  | priceLevel (currencyPair : String) (aboveRate : Option JsNumber)
      (belowRate : Option JsNumber)
  | txConfs (walletId : String) (txId : String) (confirmations : JsNumber)
  | done
  | noop
  | pushEvents
  | unixtime
deriving Repr

/-- The `effect.type` tag string of an `ActionEffect`. -/
def ActionEffect.effectType : ActionEffect → String
  | .seq _ _ => "seq"
  | .par _ => "par"
  | .addressBalance _ _ _ _ _ => "address-balance"
  | .priceLevel _ _ _ => "price-level"
  | .txConfs _ _ _ => "tx-confs"
  | .done => "done"
  | .noop => "noop"
  | .pushEvents => "push-events"
  | .unixtime => "unixtime"

/-- The flat `PushTrigger` union sent to the push server. -/
inductive PushTrigger : Type where
  | addressBalance (pluginId : String) (tokenId : Option String) (address : String)
      (aboveAmount : Option String) (belowAmount : Option String)
  | priceLevel (currencyPair : String) (aboveRate : Option JsNumber)
      (belowRate : Option JsNumber)
  | txConfirm (pluginId : String) (confirmations : JsNumber) (txid : String)
deriving Repr

/-- The `wallet.currencyInfo` slice read by this module. -/
structure CurrencyInfo : Type where
  pluginId : String
deriving Repr

/-- The `wallet.currencyConfig` slice read by this module. -/
structure CurrencyConfig : Type where
  currencyInfo : CurrencyInfo
deriving Repr

/-- The slice of an `EdgeCurrencyWallet` this module reads. -/
structure EdgeWallet : Type where
  currencyInfo : CurrencyInfo
  currencyConfig : CurrencyConfig
deriving Repr

/-- The slice of an `EdgeAccount` this module uses:
`account.waitForCurrencyWallet(walletId)` is an asynchronous lookup that
blocks until the wallet is available; it is modelled as a total function
from wallet ids to wallets. -/
structure EdgeAccount : Type where
  waitForCurrencyWallet : String → EdgeWallet

/-- The `UNEXPECTED_NULL_EFFECT_ERROR_MESSAGE` of `actionEffectToPushTrigger`. -/
def unexpectedNullEffectTriggerMsg : String :=
  "Unexpected null effect while converting to PushTrigger. " ++
    "This could be caused by a partial dryrun not properly short-circuiting."

/-- The `UNEXPECTED_NULL_EFFECT_ERROR_MESSAGE` of `getCallStackId`. -/
def unexpectedNullEffectCallStackMsg : String :=
  "Unexpected null effect while converting to CallStackId. " ++
    "This could be caused by a partial dryrun not properly short-circuiting."

/-- Embeds `actionEffectToPushTrigger(account, effect)`: converts an effect to a
push trigger, `undefined` (here `Option.none`) for inconvertible variants,
throwing (here `Except.error`) on a null `seq` child. -/
def actionEffectToPushTrigger (account : EdgeAccount) :
    ActionEffect → Except String (Option PushTrigger)
  | .seq _ childEffect =>
      match childEffect with
      | none => Except.error unexpectedNullEffectTriggerMsg
      | some child => actionEffectToPushTrigger account child
  | .addressBalance address walletId tokenId aboveAmount belowAmount =>
      let wallet := account.waitForCurrencyWallet walletId
      let pluginId := wallet.currencyInfo.pluginId
      Except.ok (some (.addressBalance pluginId tokenId address aboveAmount belowAmount))
  | .priceLevel currencyPair aboveRate belowRate =>
      Except.ok (some (.priceLevel currencyPair aboveRate belowRate))
  | .txConfs walletId txId confirmations =>
      let wallet := account.waitForCurrencyWallet walletId
      let pluginId := wallet.currencyInfo.pluginId
      Except.ok (some (.txConfirm pluginId confirmations txId))
  | .done => Except.ok none
  | .noop => Except.ok none
  | .par _ => Except.ok none
  | .pushEvents => Except.ok none
  | .unixtime => Except.ok none

mutual

/-- Embeds `getCallStackId(effect)`: derives the stable string key from an effect's
shape; throws (here `Except.error`) on a null `par` child. -/
def getCallStackId : ActionEffect → Except String String
  | .seq opIndex _childEffect => Except.ok ("seq_" ++ toString opIndex)
  | .par childEffects =>
      match getCallStackIdList childEffects with
      | .error e => Except.error e
      | .ok childCallStackIds =>
          Except.ok ("par_" ++ String.intercalate "_" childCallStackIds)
  | effect => Except.ok effect.effectType

/-- The `childEffects.map(...)` loop inside `getCallStackId`'s `par` case:
ids of the children in order, erroring at the first null child (a thrown
exception aborts the whole `map`). -/
def getCallStackIdList : List (Option ActionEffect) → Except String (List String)
  | [] => Except.ok []
  | childEffect :: rest =>
      match childEffect with
      | none => Except.error unexpectedNullEffectCallStackMsg
      | some child =>
          match getCallStackId child with
          | .error e => Except.error e
          | .ok cid =>
              match getCallStackIdList rest with
              | .error e => Except.error e
              | .ok ids => Except.ok (cid :: ids)

end

/-- One signed transaction handle: `executionTx.tx` with its `signedTx`. -/
structure EdgeTx : Type where
  signedTx : String
deriving Repr

/-- One `broadcastTxs` entry of an `ExecutionOutput`. -/
structure ExecutionTx : Type where
  walletId : String
  tx : EdgeTx
deriving Repr

/-- One dry-run step's result. -/
structure ExecutionOutput : Type where
  effect : ActionEffect
  broadcastTxs : List ExecutionTx
deriving Repr

/-- The slice of an `ActionProgram` this module reads. -/
structure ActionProgram : Type where
  programId : String
deriving Repr

/-- A `{pluginId, rawTx}` pair uploaded with a push event. -/
structure BroadcastTx : Type where
  pluginId : String
  rawTx : String
deriving Repr

/-- A device push notification message. -/
structure PushMessage : Type where
  title : String
  body : String
deriving Repr

/-- Modelled from the spec: the localized notification strings
`s.strings.action_queue_push_notification_title` and
`..._body` live in the locale files, which are not part of the verified
sources; their content is opaque to this module. -/
def actionQueuePushMessage : PushMessage :=
  { title := "action_queue_push_notification_title"
    body := "action_queue_push_notification_body" }

/-- A `NewPushEvent` record as assembled by `prepareNewPushEvents`. -/
structure NewPushEvent : Type where
  eventId : String
  broadcastTxs : List BroadcastTx
  pushMessage : Option PushMessage
  recurring : Bool
  trigger : PushTrigger
deriving Repr

/-- Models `Promise.all(list.map(f))` where each element either resolves or
rejects deterministically: all results in order, or the error. -/
def mapE {α β : Type} (f : α → Except String β) : List α → Except String (List β)
  | [] => Except.ok []
  | a :: as =>
      match f a with
      | .error e => Except.error e
      | .ok b =>
          match mapE f as with
          | .error e => Except.error e
          | .ok bs => Except.ok (b :: bs)

/-- Models `Promise.all(list.map(f))` where the callback also receives the element
index, counting from `start`. -/
def mapIdxE {α β : Type} (f : Nat → α → Except String β) :
    Nat → List α → Except String (List β)
  | _, [] => Except.ok []
  | i, a :: as =>
      match f i a with
      | .error e => Except.error e
      | .ok b =>
          match mapIdxE f (i + 1) as with
          | .error e => Except.error e
          | .ok bs => Except.ok (b :: bs)

/-- Embeds `index > 0 ? dryrunOutputs[index - 1].effect : initEffect`; the
out-of-bounds default is unreachable for indices produced by the map. -/
def prevEffectAt (initEffect : ActionEffect) (dryrunOutputs : List ExecutionOutput)
    (index : Nat) : ActionEffect :=
  if index > 0 then
    match dryrunOutputs[index - 1]? with
    | some prev => prev.effect
    | none => initEffect
  else initEffect

/-- The body of the `dryrunOutputs.map(async (output, index) => ...)`
callback in `prepareNewPushEvents`. `asHex` stands for the hex cleaner
applied to `executionTx.tx.signedTx` (defined outside this module). -/
def buildPushEvent (asHex : String → String) (account : EdgeAccount)
    (programId : String) (initEffect : ActionEffect)
    (dryrunOutputs : List ExecutionOutput) (index : Nat)
    (output : ExecutionOutput) : Except String NewPushEvent := do
  let prevEffect := prevEffectAt initEffect dryrunOutputs index
  let callStackId ← getCallStackId output.effect
  let eventId := programId ++ ":" ++ callStackId
  let broadcastTxs ← mapE
    (fun executionTx =>
      let wallet := account.waitForCurrencyWallet executionTx.walletId
      let pluginId := wallet.currencyConfig.currencyInfo.pluginId
      let rawTx := asHex executionTx.tx.signedTx
      Except.ok { pluginId := pluginId, rawTx := rawTx })
    output.broadcastTxs
  let trigger? ← actionEffectToPushTrigger account prevEffect
  match trigger? with
  | none =>
      Except.error ("Unsupported effect type " ++ prevEffect.effectType ++
        " in conversion to PushTrigger")
  | some trigger =>
      Except.ok
        { eventId := eventId
          broadcastTxs := broadcastTxs
          pushMessage :=
            if index = dryrunOutputs.length - 1 then some actionQueuePushMessage
            else none
          recurring := false
          trigger := trigger }

/-- Embeds `prepareNewPushEvents(account, program, initEffect, dryrunOutputs)`. -/
def prepareNewPushEvents (asHex : String → String) (account : EdgeAccount)
    (program : ActionProgram) (initEffect : ActionEffect)
    (dryrunOutputs : List ExecutionOutput) : Except String (List NewPushEvent) :=
  mapIdxE (buildPushEvent asHex account program.programId initEffect dryrunOutputs)
    0 dryrunOutputs

/-- One entry of the login payload's per-event status list. -/
structure PushEventStatus : Type where
  eventId : String
  state : String
deriving Repr

/-- The parsed `/v2/login` response payload (`asLoginPayload`). -/
structure LoginPayload : Type where
  events : List PushEventStatus
deriving Repr

/-- An HTTP response to the `/v2/login` POST, after body parsing:
`payload = none` models a body `asLoginPayload` rejects. -/
structure LoginResponse : Type where
  ok : Bool
  status : Nat
  payload : Option LoginPayload

/-- The `reduce` in `checkPushEvents` building `eventStatusMap` by object
spread: later entries overwrite earlier ones for a duplicated eventId. -/
def eventStatusMap (events : List PushEventStatus) : String → Option PushEventStatus :=
  events.foldl
    (fun map eventStatus id =>
      if id = eventStatus.eventId then some eventStatus else map id)
    (fun _ => none)

/-- Embeds `checkPushEvents(account, eventIds)` given the server's response. -/
def checkPushEvents (response : LoginResponse) (eventIds : List String) :
    Except String Bool :=
  if !response.ok then
    Except.error ("Request failed with " ++ toString response.status)
  else
    match response.payload with
    | none => Except.error "asLoginPayload rejected the response body"
    | some loginPayload =>
        let map := eventStatusMap loginPayload.events
        Except.ok (eventIds.all fun eventId =>
          match map eventId with
          | some status => ["triggered", "complete"].contains status.state
          | none => false)

/-- The parsed error body of a failed push-server request
(`asErrorResponse`); only its shape matters here. -/
structure ErrorResponse : Type where
  error : String
deriving Repr

/-- Embeds `asMaybe(cleaner)`: runs a cleaner, turning a thrown error into
`undefined` (here `Option.none`). -/
def asMaybe {α : Type} (cleaner : String → Except String α) (raw : String) :
    Option α :=
  (cleaner raw).toOption

/-- An HTTP response to the `/v2/login/update` POST, body text included. -/
structure HttpResponse : Type where
  ok : Bool
  status : Nat
  body : String

/-- Embeds `uploadPushEvents(account, newPushEvents)` given the server's response;
`asErrorResponse` is the error-body cleaner (defined outside this module).
The parsed `responseData` feeds only the `console.error` diagnostics. -/
def uploadPushEvents (asErrorResponse : String → Except String ErrorResponse)
    (response : HttpResponse) : Except String Unit :=
  if !response.ok then
    let responseBody := response.body
    let responseData := asMaybe asErrorResponse responseBody
    let _diagnostics := (responseBody, responseData)
    Except.error ("Request failed with " ++ toString response.status)
  else
    Except.ok ()

/-- Embeds `effectCanBeATrigger(account, effect)` lifted over the conversion's
possible invariant-violation error. -/
def effectCanBeATrigger (account : EdgeAccount) (effect : ActionEffect) :
    Except String Bool :=
  match actionEffectToPushTrigger account effect with
  | .error e => Except.error e
  | .ok trigger? => Except.ok trigger?.isSome

mutual

/-- The only error `getCallStackId` ever raises is the null-effect
invariant-violation message. -/
theorem getCallStackId_error_msg :
    ∀ (e : ActionEffect) (msg : String),
      getCallStackId e = Except.error msg → msg = unexpectedNullEffectCallStackMsg
  | .seq _ _, _, h => by simp [getCallStackId] at h
  | .par childEffects, msg, h => by
      rcases hcs : getCallStackIdList childEffects with e' | ids
      · have hmsg := getCallStackIdList_error_msg childEffects e' hcs
        rw [show getCallStackId (.par childEffects)
              = (match getCallStackIdList childEffects with
                 | .error e => Except.error e
                 | .ok childCallStackIds =>
                     Except.ok ("par_" ++ String.intercalate "_" childCallStackIds))
            from rfl, hcs] at h
        cases h
        exact hmsg
      · rw [show getCallStackId (.par childEffects)
              = (match getCallStackIdList childEffects with
                 | .error e => Except.error e
                 | .ok childCallStackIds =>
                     Except.ok ("par_" ++ String.intercalate "_" childCallStackIds))
            from rfl, hcs] at h
        cases h
  | .addressBalance _ _ _ _ _, _, h => by simp [getCallStackId] at h
  | .priceLevel _ _ _, _, h => by simp [getCallStackId] at h
  | .txConfs _ _ _, _, h => by simp [getCallStackId] at h
  | .done, _, h => by simp [getCallStackId] at h
  | .noop, _, h => by simp [getCallStackId] at h
  | .pushEvents, _, h => by simp [getCallStackId] at h
  | .unixtime, _, h => by simp [getCallStackId] at h

/-- The only error `getCallStackIdList` ever raises is the null-effect
invariant-violation message. -/
theorem getCallStackIdList_error_msg :
    ∀ (childEffects : List (Option ActionEffect)) (msg : String),
      getCallStackIdList childEffects = Except.error msg →
      msg = unexpectedNullEffectCallStackMsg
  | [], _, h => by simp [getCallStackIdList] at h
  | none :: _, msg, h => by
      rw [show getCallStackIdList (none :: _)
            = Except.error unexpectedNullEffectCallStackMsg from rfl] at h
      cases h
      rfl
  | some child :: rest, msg, h => by
      rcases hc : getCallStackId child with e' | cid
      · have hmsg := getCallStackId_error_msg child e' hc
        rw [show getCallStackIdList (some child :: rest)
              = (match getCallStackId child with
                 | .error e => Except.error e
                 | .ok cid =>
                     match getCallStackIdList rest with
                     | .error e => Except.error e
                     | .ok ids => Except.ok (cid :: ids)) from rfl, hc] at h
        cases h
        exact hmsg
      · rcases hr : getCallStackIdList rest with e' | ids
        · have hmsg := getCallStackIdList_error_msg rest e' hr
          rw [show getCallStackIdList (some child :: rest)
                = (match getCallStackId child with
                   | .error e => Except.error e
                   | .ok cid =>
                       match getCallStackIdList rest with
                       | .error e => Except.error e
                       | .ok ids => Except.ok (cid :: ids)) from rfl, hc, hr] at h
          cases h
          exact hmsg
        · rw [show getCallStackIdList (some child :: rest)
                = (match getCallStackId child with
                   | .error e => Except.error e
                   | .ok cid =>
                       match getCallStackIdList rest with
                       | .error e => Except.error e
                       | .ok ids => Except.ok (cid :: ids)) from rfl, hc, hr] at h
          cases h

end

/-- A null child anywhere in the list makes `getCallStackIdList` raise the
invariant-violation error. -/
theorem getCallStackIdList_null_mem (childEffects : List (Option ActionEffect))
    (hmem : none ∈ childEffects) :
    getCallStackIdList childEffects = Except.error unexpectedNullEffectCallStackMsg := by
  induction childEffects with
  | nil => cases hmem
  | cons c rest ih =>
      cases c with
      | none => rfl
      | some child =>
          have hrest : none ∈ rest := by
            rcases List.mem_cons.mp hmem with h | h
            · cases h
            · exact h
          rcases hc : getCallStackId child with e' | cid
          · have hmsg := getCallStackId_error_msg child e' hc
            subst hmsg
            simp [getCallStackIdList, hc]
          · simp [getCallStackIdList, hc, ih hrest]

/-- Mapping `getCallStackId` over non-null children matches
`getCallStackIdList` of the `some`-wrapped children. -/
theorem getCallStackIdList_map_some (children : List ActionEffect) :
    getCallStackIdList (children.map some) = mapE getCallStackId children := by
  induction children with
  | nil => rfl
  | cons c rest ih =>
      simp only [List.map_cons, getCallStackIdList, mapE, ih]
      rcases getCallStackId c with e | cid
      · rfl
      · rcases mapE getCallStackId rest with e | ids <;> rfl

/-- Binding `Except.ok a >>= f` reduces to `f a`. -/
theorem except_ok_bind {α β : Type} (a : α) (f : α → Except String β) :
    (Except.ok a >>= f : Except String β) = f a := rfl

/-- Inverting a successful `Except` bind. -/
theorem except_bind_ok {α β : Type} {x : Except String α}
    {f : α → Except String β} {b : β} (h : (x >>= f) = Except.ok b) :
    ∃ a, x = Except.ok a ∧ f a = Except.ok b := by
  cases x with
  | error e => exact absurd h (by simp [Bind.bind, Except.bind])
  | ok a => exact ⟨a, rfl, h⟩

/-- A successful `mapE` has one result per input, each produced by `f`. -/
theorem mapE_ok_get {α β : Type} (f : α → Except String β) :
    ∀ (l : List α) (res : List β), mapE f l = Except.ok res →
      res.length = l.length
      ∧ ∀ i (hi : i < l.length) (hr : i < res.length),
          f (l.get ⟨i, hi⟩) = Except.ok (res.get ⟨i, hr⟩) := by
  intro l
  induction l with
  | nil =>
      intro res h
      cases h
      exact ⟨rfl, fun i hi => absurd hi (by simp)⟩
  | cons a as ih =>
      intro res h
      rcases ha : f a with e | b
      · rw [show mapE f (a :: as)
              = (match f a with
                 | .error e => Except.error e
                 | .ok b =>
                     match mapE f as with
                     | .error e => Except.error e
                     | .ok bs => Except.ok (b :: bs)) from rfl, ha] at h
        cases h
      · rcases has : mapE f as with e | bs
        · rw [show mapE f (a :: as)
                = (match f a with
                   | .error e => Except.error e
                   | .ok b =>
                       match mapE f as with
                       | .error e => Except.error e
                       | .ok bs => Except.ok (b :: bs)) from rfl, ha, has] at h
          cases h
        · rw [show mapE f (a :: as)
                = (match f a with
                   | .error e => Except.error e
                   | .ok b =>
                       match mapE f as with
                       | .error e => Except.error e
                       | .ok bs => Except.ok (b :: bs)) from rfl, ha, has] at h
          cases h
          obtain ⟨hlen, hget⟩ := ih bs has
          refine ⟨by simp [hlen], ?_⟩
          intro i hi hr
          cases i with
          | zero => exact ha
          | succ n =>
              exact hget n (by simpa using hi) (by simpa using hr)

/-- If every element maps to a value, `mapE` returns the mapped list. -/
theorem mapE_congr_ok {α β : Type} (f : α → Except String β) (g : α → β)
    (hf : ∀ a, f a = Except.ok (g a)) (l : List α) :
    mapE f l = Except.ok (l.map g) := by
  induction l with
  | nil => rfl
  | cons a as ih =>
      rw [show mapE f (a :: as)
            = (match f a with
               | .error e => Except.error e
               | .ok b =>
                   match mapE f as with
                   | .error e => Except.error e
                   | .ok bs => Except.ok (b :: bs)) from rfl, hf, ih]
      rfl

/-- A successful `mapIdxE` has one result per input, each produced by the
callback at its index (offset by the starting index). -/
theorem mapIdxE_ok_get {α β : Type} (f : Nat → α → Except String β) :
    ∀ (l : List α) (k : Nat) (res : List β), mapIdxE f k l = Except.ok res →
      res.length = l.length
      ∧ ∀ i (hi : i < l.length) (hr : i < res.length),
          f (k + i) (l.get ⟨i, hi⟩) = Except.ok (res.get ⟨i, hr⟩) := by
  intro l
  induction l with
  | nil =>
      intro k res h
      cases h
      exact ⟨rfl, fun i hi => absurd hi (by simp)⟩
  | cons a as ih =>
      intro k res h
      rcases ha : f k a with e | b
      · rw [show mapIdxE f k (a :: as)
              = (match f k a with
                 | .error e => Except.error e
                 | .ok b =>
                     match mapIdxE f (k + 1) as with
                     | .error e => Except.error e
                     | .ok bs => Except.ok (b :: bs)) from rfl, ha] at h
        cases h
      · rcases has : mapIdxE f (k + 1) as with e | bs
        · rw [show mapIdxE f k (a :: as)
                = (match f k a with
                   | .error e => Except.error e
                   | .ok b =>
                       match mapIdxE f (k + 1) as with
                       | .error e => Except.error e
                       | .ok bs => Except.ok (b :: bs)) from rfl, ha, has] at h
          cases h
        · rw [show mapIdxE f k (a :: as)
                = (match f k a with
                   | .error e => Except.error e
                   | .ok b =>
                       match mapIdxE f (k + 1) as with
                       | .error e => Except.error e
                       | .ok bs => Except.ok (b :: bs)) from rfl, ha, has] at h
          cases h
          obtain ⟨hlen, hget⟩ := ih (k + 1) bs has
          refine ⟨by simp [hlen], ?_⟩
          intro i hi hr
          cases i with
          | zero => simpa using ha
          | succ n =>
              have := hget n (by simpa using hi) (by simpa using hr)
              have harith : k + 1 + n = k + (n + 1) := by omega
              rw [harith] at this
              simpa using this

/-- If every callback before index `i` succeeds and the callback at `i`
fails, `mapIdxE` fails with that error. -/
theorem mapIdxE_error_at {α β : Type} (f : Nat → α → Except String β) :
    ∀ (l : List α) (k : Nat) (i : Nat) (hi : i < l.length) (msg : String),
      (∀ j (hj : j < i), ∃ b, f (k + j) (l.get ⟨j, by omega⟩) = Except.ok b) →
      f (k + i) (l.get ⟨i, hi⟩) = Except.error msg →
      mapIdxE f k l = Except.error msg := by
  intro l
  induction l with
  | nil => intro k i hi; exact absurd hi (by simp)
  | cons a as ih =>
      intro k i hi msg hok herr
      cases i with
      | zero =>
          have ha : f k a = Except.error msg := by simpa using herr
          rw [show mapIdxE f k (a :: as)
                = (match f k a with
                   | .error e => Except.error e
                   | .ok b =>
                       match mapIdxE f (k + 1) as with
                       | .error e => Except.error e
                       | .ok bs => Except.ok (b :: bs)) from rfl, ha]
      | succ n =>
          obtain ⟨b, hb⟩ := hok 0 (by omega)
          have ha : f k a = Except.ok b := by simpa using hb
          have hrec : mapIdxE f (k + 1) as = Except.error msg := by
            have hn : n < as.length := by simpa using hi
            refine ih (k + 1) n hn msg ?_ ?_
            · intro j hj
              obtain ⟨b', hb'⟩ := hok (j + 1) (by omega)
              refine ⟨b', ?_⟩
              have harith : k + (j + 1) = k + 1 + j := by omega
              rw [harith] at hb'
              simpa using hb'
            · have harith : k + (n + 1) = k + 1 + n := by omega
              rw [harith] at herr
              simpa using herr
          rw [show mapIdxE f k (a :: as)
                = (match f k a with
                   | .error e => Except.error e
                   | .ok b =>
                       match mapIdxE f (k + 1) as with
                       | .error e => Except.error e
                       | .ok bs => Except.ok (b :: bs)) from rfl, ha, hrec]

/-- The `prevEffect` selection at an in-bounds index. -/
theorem prevEffectAt_eq (initEffect : ActionEffect)
    (dryrunOutputs : List ExecutionOutput) (i : Nat) (hi : i < dryrunOutputs.length) :
    prevEffectAt initEffect dryrunOutputs i
      = if i = 0 then initEffect
        else (dryrunOutputs.get ⟨i - 1, by omega⟩).effect := by
  rcases Nat.eq_zero_or_pos i with h0 | hpos
  · subst h0
    rfl
  · have hne : i ≠ 0 := by omega
    have hlt : i - 1 < dryrunOutputs.length := by omega
    rw [prevEffectAt, if_pos hpos, if_neg hne, List.getElem?_eq_getElem hlt]
    simp [List.get_eq_getElem]

/-- Inverting a successful `buildPushEvent`: each field of the event. -/
theorem buildPushEvent_ok_inv (asHex : String → String) (account : EdgeAccount)
    (programId : String) (initEffect : ActionEffect)
    (dryrunOutputs : List ExecutionOutput) (index : Nat)
    (output : ExecutionOutput) (ev : NewPushEvent)
    (h : buildPushEvent asHex account programId initEffect dryrunOutputs index output
      = Except.ok ev) :
    (∃ callStackId, getCallStackId output.effect = Except.ok callStackId
        ∧ ev.eventId = programId ++ ":" ++ callStackId)
    ∧ actionEffectToPushTrigger account (prevEffectAt initEffect dryrunOutputs index)
        = Except.ok (some ev.trigger)
    ∧ ev.pushMessage
        = (if index = dryrunOutputs.length - 1 then some actionQueuePushMessage else none)
    ∧ ev.recurring = false := by
  rw [buildPushEvent] at h
  obtain ⟨callStackId, hcs, h⟩ := except_bind_ok h
  obtain ⟨broadcastTxs, hbt, h⟩ := except_bind_ok h
  obtain ⟨trigger?, htr, h⟩ := except_bind_ok h
  cases trigger? with
  | none => exact absurd h (by simp)
  | some trigger =>
      cases h
      exact ⟨⟨callStackId, hcs, rfl⟩, htr, rfl, rfl⟩

/-- Claim C1: for every effect tagged `address-balance`, `price-level` or
`tx-confs`, `actionEffectToPushTrigger` returns a non-none trigger whose
fields pass through from the effect unchanged, with `pluginId` taken from
the resolved wallet (`tx-confs` maps to tag `tx-confirm` with `txId` as
`txid`); for every effect tagged `done`, `noop`, `par`, `push-events` or
`unixtime` it returns none. -/
theorem c1_trigger_conversion (account : EdgeAccount) :
    (∀ address walletId tokenId aboveAmount belowAmount,
      actionEffectToPushTrigger account
          (.addressBalance address walletId tokenId aboveAmount belowAmount)
        = Except.ok (some (.addressBalance
            (account.waitForCurrencyWallet walletId).currencyInfo.pluginId
            tokenId address aboveAmount belowAmount)))
    ∧ (∀ currencyPair aboveRate belowRate,
      actionEffectToPushTrigger account (.priceLevel currencyPair aboveRate belowRate)
        = Except.ok (some (.priceLevel currencyPair aboveRate belowRate)))
    ∧ (∀ walletId txId confirmations,
      actionEffectToPushTrigger account (.txConfs walletId txId confirmations)
        = Except.ok (some (.txConfirm
            (account.waitForCurrencyWallet walletId).currencyInfo.pluginId
            confirmations txId)))
    ∧ actionEffectToPushTrigger account .done = Except.ok none
    ∧ actionEffectToPushTrigger account .noop = Except.ok none
    ∧ (∀ childEffects,
        actionEffectToPushTrigger account (.par childEffects) = Except.ok none)
    ∧ actionEffectToPushTrigger account .pushEvents = Except.ok none
    ∧ actionEffectToPushTrigger account .unixtime = Except.ok none :=
  ⟨fun _ _ _ _ _ => rfl, fun _ _ _ => rfl, fun _ _ _ => rfl, rfl, rfl,
    fun _ => rfl, rfl, rfl⟩

/-- Claim C2: for every `seq` effect, `actionEffectToPushTrigger` returns the
conversion of `childEffect` when it is present and raises the null-effect
invariant-violation error when it is absent. -/
theorem c2_seq_recursion (account : EdgeAccount) :
    (∀ opIndex child,
      actionEffectToPushTrigger account (.seq opIndex (some child))
        = actionEffectToPushTrigger account child)
    ∧ (∀ opIndex,
      actionEffectToPushTrigger account (.seq opIndex none)
        = Except.error unexpectedNullEffectTriggerMsg) :=
  ⟨fun _ _ => rfl, fun _ => rfl⟩

/-- Claim C3: `getCallStackId` returns `"seq_<opIndex>"` for `seq`; for
`par` it returns `"par_"` followed by the children's ids in order joined
with `"_"`, raising the invariant-violation error if any child is null; and
for every other tag it returns the variant's tag name verbatim. -/
theorem c3_call_stack_id_spec :
    (∀ (opIndex : Nat) (childEffect : Option ActionEffect),
      getCallStackId (.seq opIndex childEffect)
        = Except.ok ("seq_" ++ toString opIndex))
    ∧ (∀ (children : List ActionEffect) (ids : List String),
        mapE getCallStackId children = Except.ok ids →
        getCallStackId (.par (children.map some))
          = Except.ok ("par_" ++ String.intercalate "_" ids))
    ∧ (∀ childEffects : List (Option ActionEffect), none ∈ childEffects →
        getCallStackId (.par childEffects)
          = Except.error unexpectedNullEffectCallStackMsg)
    ∧ (∀ e : ActionEffect, e.effectType ∉ (["seq", "par"] : List String) →
        getCallStackId e = Except.ok e.effectType) := by
  refine ⟨fun _ _ => rfl, ?_, ?_, ?_⟩
  · intro children ids h
    have hlist := getCallStackIdList_map_some children
    rw [h] at hlist
    show (match getCallStackIdList (children.map some) with
          | .error e => Except.error e
          | .ok childCallStackIds =>
              Except.ok ("par_" ++ String.intercalate "_" childCallStackIds)) = _
    rw [hlist]
  · intro childEffects hmem
    have hlist := getCallStackIdList_null_mem childEffects hmem
    show (match getCallStackIdList childEffects with
          | .error e => Except.error e
          | .ok childCallStackIds =>
              Except.ok ("par_" ++ String.intercalate "_" childCallStackIds)) = _
    rw [hlist]
  · intro e he
    cases e with
    | seq opIndex childEffect => exact absurd (by simp [ActionEffect.effectType]) he
    | par childEffects => exact absurd (by simp [ActionEffect.effectType]) he
    | addressBalance _ _ _ _ _ => rfl
    | priceLevel _ _ _ => rfl
    | txConfs _ _ _ => rfl
    | done => rfl
    | noop => rfl
    | pushEvents => rfl
    | unixtime => rfl

/-- Witness for C3: each branch of the call-stack id builder evaluated at a
concrete effect. -/
theorem c3_witness :
    getCallStackId (.seq 7 none) = Except.ok ("seq_" ++ toString 7)
    ∧ getCallStackId (.par ([ActionEffect.done, .noop].map some))
      = Except.ok ("par_" ++ String.intercalate "_" ["done", "noop"])
    ∧ getCallStackId (.par [some .done, none])
      = Except.error unexpectedNullEffectCallStackMsg
    ∧ getCallStackId .unixtime = Except.ok ActionEffect.unixtime.effectType :=
  ⟨c3_call_stack_id_spec.1 7 none,
    c3_call_stack_id_spec.2.1 [ActionEffect.done, .noop] ["done", "noop"] rfl,
    c3_call_stack_id_spec.2.2.1 [some .done, none] (by simp),
    c3_call_stack_id_spec.2.2.2 .unixtime (by decide)⟩

/-- Counterexample to claim C4 as stated: `seq 0 null` and `seq 0 done` are
structurally distinct effects, yet `par` of them in either order yields the
same call-stack id (both children alone already share the id `"seq_0"`). -/
theorem c4_counterexample :
    ActionEffect.seq 0 none ≠ ActionEffect.seq 0 (some .done)
    ∧ getCallStackId (.par [some (.seq 0 none), some (.seq 0 (some .done))])
      = getCallStackId (.par [some (.seq 0 (some .done)), some (.seq 0 none)]) := by
  refine ⟨?_, rfl⟩
  intro h
  simp at h

/-- Claim C4 (amended): `getCallStackId` is deterministic — structurally
identical effects yield identical strings — and `par` child order can be
significant: there are distinct effects, such as `done` and `noop`, whose
`par` compositions in the two orders yield different ids. (The original
universal order-sensitivity claim fails for distinct effects that share a
call-stack id.) -/
theorem c4_deterministic_order_significant :
    (∀ e₁ e₂ : ActionEffect, e₁ = e₂ → getCallStackId e₁ = getCallStackId e₂)
    ∧ getCallStackId (.par [some .done, some .noop])
      ≠ getCallStackId (.par [some .noop, some .done]) := by
  refine ⟨fun e₁ e₂ h => by rw [h], ?_⟩
  intro h
  have h1 : getCallStackId (.par [some .done, some .noop])
      = Except.ok "par_done_noop" := rfl
  have h2 : getCallStackId (.par [some .noop, some .done])
      = Except.ok "par_noop_done" := rfl
  rw [h1, h2] at h
  injection h with h'
  exact absurd h' (by decide)

/-- Witness for C4: the determinism half applied to a concrete effect. -/
theorem c4_witness :
    getCallStackId (.seq 0 (some .done)) = getCallStackId (.seq 0 (some .done))
    ∧ getCallStackId (.par [some .done, some .noop])
      ≠ getCallStackId (.par [some .noop, some .done]) :=
  ⟨c4_deterministic_order_significant.1 (.seq 0 (some .done)) (.seq 0 (some .done)) rfl,
    c4_deterministic_order_significant.2⟩

/-- Claim C5: on success, `prepareNewPushEvents` returns one event per
dry-run output in input order; the i-th event's trigger is the conversion
of `initEffect` when i = 0 and of `dryrunOutputs[i-1].effect` when i > 0,
and its eventId is `"<programId>:<callStackId>"` with the call-stack id
built from `dryrunOutputs[i].effect` (the step's own effect). -/
theorem c5_event_assembly (asHex : String → String) (account : EdgeAccount)
    (program : ActionProgram) (initEffect : ActionEffect)
    (dryrunOutputs : List ExecutionOutput) (events : List NewPushEvent)
    (h : prepareNewPushEvents asHex account program initEffect dryrunOutputs
      = Except.ok events) :
    events.length = dryrunOutputs.length
    ∧ ∀ i (hi : i < dryrunOutputs.length) (hr : i < events.length),
        actionEffectToPushTrigger account
            (if i = 0 then initEffect
             else (dryrunOutputs.get ⟨i - 1, by omega⟩).effect)
          = Except.ok (some (events.get ⟨i, hr⟩).trigger)
        ∧ ∃ callStackId,
            getCallStackId (dryrunOutputs.get ⟨i, hi⟩).effect = Except.ok callStackId
            ∧ (events.get ⟨i, hr⟩).eventId = program.programId ++ ":" ++ callStackId := by
  rw [prepareNewPushEvents] at h
  obtain ⟨hlen, hget⟩ := mapIdxE_ok_get _ dryrunOutputs 0 events h
  refine ⟨hlen, ?_⟩
  intro i hi hr
  have hb := hget i hi hr
  rw [Nat.zero_add] at hb
  obtain ⟨hid, htr, _, _⟩ := buildPushEvent_ok_inv _ _ _ _ _ _ _ _ hb
  rw [prevEffectAt_eq _ _ i hi] at htr
  exact ⟨htr, hid⟩

/-- Witness for C5: the length conclusion on a concrete one-step program. -/
theorem c5_witness :
    ([⟨"p:done", [], some actionQueuePushMessage, false, .txConfirm "pi" 1 "t"⟩]
        : List NewPushEvent).length
      = ([⟨.done, []⟩] : List ExecutionOutput).length :=
  (c5_event_assembly (fun s => s) ⟨fun _ => ⟨⟨"pi"⟩, ⟨⟨"pc"⟩⟩⟩⟩ ⟨"p"⟩
    (.txConfs "w" "t" 1) [⟨.done, []⟩]
    [⟨"p:done", [], some actionQueuePushMessage, false, .txConfirm "pi" 1 "t"⟩] rfl).1

/-- Claim C6: whenever the trigger converter yields none for the prevEffect
of some step, `prepareNewPushEvents` never returns an event list — partial
or otherwise; and when that step is the first failure actually hit (every
earlier step succeeds and the step's own call-stack id builds), it fails
with the "unsupported effect type" error naming `prevEffect.type`. -/
theorem c6_unsupported_effect_aborts (asHex : String → String)
    (account : EdgeAccount) (program : ActionProgram) (initEffect : ActionEffect)
    (dryrunOutputs : List ExecutionOutput) (i : Nat)
    (hi : i < dryrunOutputs.length)
    (hnone : actionEffectToPushTrigger account
        (prevEffectAt initEffect dryrunOutputs i) = Except.ok none) :
    (∀ events, prepareNewPushEvents asHex account program initEffect dryrunOutputs
        ≠ Except.ok events)
    ∧ ((∀ j (hj : j < i), ∃ ev,
          buildPushEvent asHex account program.programId initEffect dryrunOutputs j
              (dryrunOutputs.get ⟨j, by omega⟩)
            = Except.ok ev) →
       (∃ callStackId,
          getCallStackId (dryrunOutputs.get ⟨i, hi⟩).effect = Except.ok callStackId) →
       prepareNewPushEvents asHex account program initEffect dryrunOutputs
         = Except.error ("Unsupported effect type "
             ++ (prevEffectAt initEffect dryrunOutputs i).effectType
             ++ " in conversion to PushTrigger")) := by
  constructor
  · intro events hev
    rw [prepareNewPushEvents] at hev
    obtain ⟨hlen, hget⟩ := mapIdxE_ok_get _ dryrunOutputs 0 events hev
    have hb := hget i hi (by omega)
    rw [Nat.zero_add] at hb
    obtain ⟨_, htr, _, _⟩ := buildPushEvent_ok_inv _ _ _ _ _ _ _ _ hb
    rw [hnone] at htr
    cases htr
  · intro hok hcs
    obtain ⟨callStackId, hcsv⟩ := hcs
    have hbuild : buildPushEvent asHex account program.programId initEffect
        dryrunOutputs i (dryrunOutputs.get ⟨i, hi⟩)
        = Except.error ("Unsupported effect type "
            ++ (prevEffectAt initEffect dryrunOutputs i).effectType
            ++ " in conversion to PushTrigger") := by
      have hmap : mapE
          (fun executionTx =>
            let wallet := account.waitForCurrencyWallet executionTx.walletId
            let pluginId := wallet.currencyConfig.currencyInfo.pluginId
            let rawTx := asHex executionTx.tx.signedTx
            Except.ok { pluginId := pluginId, rawTx := rawTx })
          (dryrunOutputs.get ⟨i, hi⟩).broadcastTxs
          = Except.ok ((dryrunOutputs.get ⟨i, hi⟩).broadcastTxs.map
              (fun executionTx =>
                ({ pluginId := (account.waitForCurrencyWallet
                      executionTx.walletId).currencyConfig.currencyInfo.pluginId
                   rawTx := asHex executionTx.tx.signedTx } : BroadcastTx))) :=
        mapE_congr_ok _ _ (fun _ => rfl) _
      rw [buildPushEvent, hcsv, except_ok_bind, hmap, except_ok_bind, hnone,
        except_ok_bind]
    rw [prepareNewPushEvents]
    refine mapIdxE_error_at _ dryrunOutputs 0 i hi _ ?_ ?_
    · intro j hj
      obtain ⟨ev, hev⟩ := hok j hj
      exact ⟨ev, by simpa using hev⟩
    · simpa using hbuild

/-- Witness for C6: a two-step program whose second step's previous effect
is `done`, which has no trigger representation. -/
theorem c6_witness :
    prepareNewPushEvents (fun s => s) ⟨fun _ => ⟨⟨"pi"⟩, ⟨⟨"pc"⟩⟩⟩⟩ ⟨"p"⟩
        (.txConfs "w" "t" 1) [⟨.done, []⟩, ⟨.noop, []⟩]
      = Except.error ("Unsupported effect type "
          ++ (prevEffectAt (.txConfs "w" "t" 1) [⟨.done, []⟩, ⟨.noop, []⟩] 1).effectType
          ++ " in conversion to PushTrigger") :=
  (c6_unsupported_effect_aborts (fun s => s) ⟨fun _ => ⟨⟨"pi"⟩, ⟨⟨"pc"⟩⟩⟩⟩ ⟨"p"⟩
    (.txConfs "w" "t" 1) [⟨.done, []⟩, ⟨.noop, []⟩] 1 (by simp) rfl).2
    (fun j hj => ⟨⟨"p:done", [], none, false, .txConfirm "pi" 1 "t"⟩, by
      have hj0 : j = 0 := by omega
      subst hj0
      rfl⟩)
    ⟨"noop", rfl⟩

/-- Claim C7: on a successful run over a non-empty `dryrunOutputs` list,
exactly the event at the last index carries the push message (all prior
events have it absent) and every event has `recurring = false`. -/
theorem c7_push_message_last (asHex : String → String) (account : EdgeAccount)
    (program : ActionProgram) (initEffect : ActionEffect)
    (dryrunOutputs : List ExecutionOutput) (events : List NewPushEvent)
    (h : prepareNewPushEvents asHex account program initEffect dryrunOutputs
      = Except.ok events)
    (hne : dryrunOutputs ≠ []) :
    events.length = dryrunOutputs.length
    ∧ ∀ i (hi : i < events.length),
        ((events.get ⟨i, hi⟩).pushMessage
          = if i = dryrunOutputs.length - 1 then some actionQueuePushMessage else none)
        ∧ (events.get ⟨i, hi⟩).recurring = false := by
  rw [prepareNewPushEvents] at h
  obtain ⟨hlen, hget⟩ := mapIdxE_ok_get _ dryrunOutputs 0 events h
  refine ⟨hlen, ?_⟩
  intro i hi
  have hi' : i < dryrunOutputs.length := by omega
  have hb := hget i hi' hi
  rw [Nat.zero_add] at hb
  obtain ⟨_, _, hmsg, hrec⟩ := buildPushEvent_ok_inv _ _ _ _ _ _ _ _ hb
  exact ⟨hmsg, hrec⟩

/-- Witness for C7: the concrete one-step run carries the push message on
its only (hence last) event with `recurring = false`. -/
theorem c7_witness :
    ([⟨"p:done", [], some actionQueuePushMessage, false, .txConfirm "pi" 1 "t"⟩]
        : List NewPushEvent).length
      = ([⟨.done, []⟩] : List ExecutionOutput).length
    ∧ ∀ i (hi : i < ([⟨"p:done", [], some actionQueuePushMessage, false,
          .txConfirm "pi" 1 "t"⟩] : List NewPushEvent).length),
        ((([⟨"p:done", [], some actionQueuePushMessage, false,
            .txConfirm "pi" 1 "t"⟩] : List NewPushEvent).get ⟨i, hi⟩).pushMessage
          = if i = ([⟨.done, []⟩] : List ExecutionOutput).length - 1
            then some actionQueuePushMessage else none)
        ∧ (([⟨"p:done", [], some actionQueuePushMessage, false,
            .txConfirm "pi" 1 "t"⟩] : List NewPushEvent).get ⟨i, hi⟩).recurring
          = false :=
  c7_push_message_last (fun s => s) ⟨fun _ => ⟨⟨"pi"⟩, ⟨⟨"pc"⟩⟩⟩⟩ ⟨"p"⟩
    (.txConfs "w" "t" 1) [⟨.done, []⟩]
    [⟨"p:done", [], some actionQueuePushMessage, false, .txConfirm "pi" 1 "t"⟩]
    rfl (by simp)

/-- The object-spread `reduce` lookup, generalized over its accumulator:
the last matching entry wins, falling back to the accumulator. -/
theorem eventStatusMap_foldl (events : List PushEventStatus)
    (acc : String → Option PushEventStatus) (id : String) :
    events.foldl
      (fun map eventStatus id' =>
        if id' = eventStatus.eventId then some eventStatus else map id')
      acc id
      = (events.reverse.find? (fun e => e.eventId == id)).or (acc id) := by
  induction events generalizing acc with
  | nil => rfl
  | cons e rest ih =>
      rw [List.foldl_cons, ih, List.reverse_cons, List.find?_append, Option.or_assoc]
      congr 1
      rw [List.find?_cons, List.find?_nil]
      by_cases hid : id = e.eventId
      · have hbeq : (e.eventId == id) = true := by simp [hid]
        rw [if_pos hid, hbeq]
        rfl
      · have hbeq : (e.eventId == id) = false := by
          simp only [beq_eq_false_iff_ne, ne_eq]
          intro hcon
          exact hid hcon.symm
        rw [if_neg hid, hbeq, Option.none_or]

/-- The map `eventStatusMap` is a last-entry-wins lookup over the status list. -/
theorem eventStatusMap_eq_find (events : List PushEventStatus) (id : String) :
    eventStatusMap events id
      = events.reverse.find? (fun e => e.eventId == id) := by
  have h := eventStatusMap_foldl events (fun _ => none) id
  rw [Option.or_none] at h
  exact h

/-- Claim C8: on a successful server response, `checkPushEvents` returns
true if and only if every requested eventId is present in the per-event
status map (last entry wins) with state `triggered` or `complete`; a
missing id or any other state makes it return false. -/
theorem c8_check_push_events (response : LoginResponse) (eventIds : List String)
    (loginPayload : LoginPayload) (hok : response.ok = true)
    (hpayload : response.payload = some loginPayload) :
    (checkPushEvents response eventIds = Except.ok true
      ↔ ∀ id ∈ eventIds, ∃ status,
          loginPayload.events.reverse.find? (fun e => e.eventId == id) = some status
          ∧ (status.state = "triggered" ∨ status.state = "complete"))
    ∧ (checkPushEvents response eventIds = Except.ok false
      ↔ ¬ ∀ id ∈ eventIds, ∃ status,
          loginPayload.events.reverse.find? (fun e => e.eventId == id) = some status
          ∧ (status.state = "triggered" ∨ status.state = "complete")) := by
  have hred : checkPushEvents response eventIds
      = Except.ok (eventIds.all fun eventId =>
          match eventStatusMap loginPayload.events eventId with
          | some status => ["triggered", "complete"].contains status.state
          | none => false) := by
    rw [checkPushEvents, hok, hpayload]
    rfl
  have hiff : (eventIds.all fun eventId =>
        match eventStatusMap loginPayload.events eventId with
        | some status => ["triggered", "complete"].contains status.state
        | none => false) = true
      ↔ ∀ id ∈ eventIds, ∃ status,
          loginPayload.events.reverse.find? (fun e => e.eventId == id) = some status
          ∧ (status.state = "triggered" ∨ status.state = "complete") := by
    rw [List.all_eq_true]
    constructor
    · intro h id hid
      have hv := h id hid
      rcases hfind : eventStatusMap loginPayload.events id with _ | st
      · rw [hfind] at hv
        cases hv
      · rw [hfind] at hv
        refine ⟨st, ?_, ?_⟩
        · rw [← eventStatusMap_eq_find]
          exact hfind
        · simpa using hv
    · intro h id hid
      obtain ⟨st, hfind, hstate⟩ := h id hid
      rw [← eventStatusMap_eq_find] at hfind
      rw [hfind]
      rcases hstate with hs | hs <;> simp [hs]
  constructor
  · rw [hred]
    constructor
    · intro h
      exact hiff.mp (Except.ok.inj h)
    · intro h
      rw [hiff.mpr h]
  · rw [hred]
    constructor
    · intro h hforall
      have hfalse := Except.ok.inj h
      rw [hiff.mpr hforall] at hfalse
      cases hfalse
    · intro h
      have hfalse : (eventIds.all fun eventId =>
          match eventStatusMap loginPayload.events eventId with
          | some status => ["triggered", "complete"].contains status.state
          | none => false) = false := by
        rcases hall : (eventIds.all fun eventId =>
            match eventStatusMap loginPayload.events eventId with
            | some status => ["triggered", "complete"].contains status.state
            | none => false) with _ | _
        · rfl
        · exact absurd (hiff.mp hall) h
      rw [hfalse]

/-- Witness for C8: a response whose map has `e1` complete and `e2` pending
makes the check succeed for `["e1"]` and fail for `["e1", "e2"]`. -/
theorem c8_witness :
    checkPushEvents ⟨true, 200, some ⟨[⟨"e1", "complete"⟩, ⟨"e2", "pending"⟩]⟩⟩ ["e1"]
      = Except.ok true
    ∧ checkPushEvents ⟨true, 200, some ⟨[⟨"e1", "complete"⟩, ⟨"e2", "pending"⟩]⟩⟩
        ["e1", "e2"]
      = Except.ok false := by
  constructor
  · refine (c8_check_push_events _ ["e1"] ⟨[⟨"e1", "complete"⟩, ⟨"e2", "pending"⟩]⟩
      rfl rfl).1.mpr ?_
    intro id hid
    have hid1 : id = "e1" := by simpa using hid
    subst hid1
    exact ⟨⟨"e1", "complete"⟩, rfl, Or.inr rfl⟩
  · refine (c8_check_push_events _ ["e1", "e2"] ⟨[⟨"e1", "complete"⟩, ⟨"e2", "pending"⟩]⟩
      rfl rfl).2.mpr ?_
    intro hforall
    obtain ⟨st, hfind, hstate⟩ := hforall "e2" (by simp)
    have hst : st = ⟨"e2", "pending"⟩ := by
      have hfind2 : (some ⟨"e2", "pending"⟩ : Option PushEventStatus) = some st := by
        rw [← hfind]
        rfl
      exact (Option.some.inj hfind2).symm
    subst hst
    rcases hstate with hs | hs <;> exact absurd hs (by decide)

/-- Claim C9: `uploadPushEvents` raises the transport error
`"Request failed with <status>"` on every non-success response, for every
error-body cleaner — an unparseable body neither suppresses the error nor
crashes the error path — and returns without error on a success response. -/
theorem c9_upload_transport_error
    (asErrorResponse : String → Except String ErrorResponse)
    (response : HttpResponse) :
    (response.ok = false →
      uploadPushEvents asErrorResponse response
        = Except.error ("Request failed with " ++ toString response.status))
    ∧ (response.ok = true →
      uploadPushEvents asErrorResponse response = Except.ok ()) := by
  constructor <;> intro h <;> simp [uploadPushEvents, h]

/-- Witness for C9: an HTTP 500 whose body every parse attempt rejects still
raises the transport error, and a success response returns cleanly. -/
theorem c9_witness :
    uploadPushEvents (fun _ => Except.error "SyntaxError") ⟨false, 500, "<html>garbage"⟩
      = Except.error ("Request failed with " ++ toString 500)
    ∧ uploadPushEvents (fun _ => Except.error "SyntaxError") ⟨true, 200, ""⟩
      = Except.ok () :=
  ⟨(c9_upload_transport_error _ _).1 rfl, (c9_upload_transport_error _ _).2 rfl⟩

/-- Claim C10: `getCallStackId` is not injective — `par [par [done, noop]]`
and `par [par [done], noop]` are structurally distinct effects that both
yield the id `"par_par_done_noop"`, because child ids are joined with the
same `_` separator used inside the ids themselves. -/
theorem c10_call_stack_id_collision :
    ActionEffect.par [some (.par [some .done, some .noop])]
      ≠ ActionEffect.par [some (.par [some .done]), some .noop]
    ∧ getCallStackId (.par [some (.par [some .done, some .noop])])
      = Except.ok "par_par_done_noop"
    ∧ getCallStackId (.par [some (.par [some .done]), some .noop])
      = Except.ok "par_par_done_noop" := by
  refine ⟨?_, rfl, rfl⟩
  intro h
  simp at h

end ActionQueuePush
